import Mathlib

/-!
Shallow embedding of `src/pyastar2d/astar_wrapper.py` from pyastar2d.

The source file defines `astar_path`, a Python wrapper that validates a 2-D
numpy array of float32 weights together with start/goal coordinates and then
invokes the compiled C core `pyastar2d.astar.astar` on the row-major flattening
of the array.  The C core itself is not part of the sources, so the wrapper is
embedded as a function parametric in the core.  Float32 values are modelled as
rationals, Python exceptions as the error side of an `Except` value, with one
constructor per distinct exception the wrapper can raise.
-/

namespace PyAstar2D

/-- Model of the 2-D numpy array handed to `astar_path`: a dtype tag (the
string `"float32"` stands for `np.float32`), the shape `(H, W)`, and the
entries, float32 values modelled as rationals. -/
structure NDArray where
  dtype : String
  H : Nat
  W : Nat
  entries : Nat → Nat → ℚ

/-- Embedding of `weights.flatten()`: the row-major (C-order) flattening of the
2-D array, row 0 first, each row listing its `W` entries in column order. -/
def NDArray.flatten (a : NDArray) : List ℚ :=
  (List.range a.H).flatMap fun r => (List.range a.W).map fun c => a.entries r c

/-- Embedding of numpy's `min` reduction on a sequence of NaN-free values:
`none` models the `ValueError` numpy raises on a zero-size reduction,
otherwise the least element is returned.  On real float32 data numpy's `min`
propagates NaN, which `ℚ` cannot represent; `npMinF` below refines this
reduction over NaN-aware values and is the model used wherever NaN matters.
The `ℚ` reduction is exact on NaN-free arrays — in particular wherever a
hypothesis bounds every entry from below by 1 (no NaN is `≥ 1`). -/
def npMin : List ℚ → Option ℚ
  | [] => none
  | x :: xs => some (xs.foldl min x)

/-- Embedding of `weights.min(axis=None)` for the 2-D array. -/
def NDArray.min (a : NDArray) : Option ℚ :=
  npMin a.flatten

/-- The Python exceptions `astar_path` can raise; each constructor keeps the
data interpolated into the corresponding message. -/
inductive AstarError where
  /-- Python `AssertionError` with message `weights must have np.float32 data
  type, but has {dtype}`, raised by the dtype assert. -/
  | assertDtype (actual : String)
  /-- Python `ValueError` raised inside `weights.min(axis=None)` when the
  array has no elements (numpy zero-size reduction). -/
  | emptyReduction
  /-- Python `ValueError` with message `Minimum cost to move must be 1, but
  got %f`, carrying the array minimum. -/
  | minCost (got : ℚ)
  /-- Python `ValueError` with message `Start of {start} lies outside grid.` -/
  | startOutside (start : Int × Int)
  /-- Python `ValueError` with message `Goal of {goal} lies outside grid.` -/
  | goalOutside (goal : Int × Int)
  deriving DecidableEq

/-- Embedding of `np.ravel_multi_index(p, (H, W))` as evaluated by the
wrapper: row index times width plus column index.  The wrapper only reaches
this call after its bounds checks, so both components are nonnegative and the
`Int.toNat` coercions are exact. -/
def ravel (p : Int × Int) (W : Nat) : Nat :=
  p.1.toNat * W + p.2.toNat

/-- A coordinate pair is in bounds for the grid when its row lies in `[0, H)`
and its column lies in `[0, W)`; the wrapper's out-of-bounds tests are the
negation of this predicate. -/
def inBounds (a : NDArray) (p : Int × Int) : Prop :=
  0 ≤ p.1 ∧ p.1 < (a.H : Int) ∧ 0 ≤ p.2 ∧ p.2 < (a.W : Int)

instance (a : NDArray) (p : Int × Int) : Decidable (inBounds a p) := by
  unfold inBounds; infer_instance

/-- Argument signature of the C core `pyastar2d.astar.astar` as invoked by the
wrapper: flattened weights, height, width, flattened start index, flattened
goal index, diagonal flag, heuristic selector, tiebreaker coefficient.  The
result type is left polymorphic (the ctypes binding is dynamically typed); the
real core yields an N-by-2 coordinate array or `None`. -/
def CoreFn (α : Type) : Type :=
  List ℚ → Nat → Nat → Nat → Nat → Bool → Int → ℚ → α

/-- Embedding of `astar_path` from `astar_wrapper.py`, parametric in the
foreign core.  It mirrors the source line by line: the `np.float32` dtype
assert, the minimum-weight check `weights.min(axis=None) < 1.`, the start
bounds check, the goal bounds check, and finally the call
`pyastar2d.astar.astar(weights.flatten(), height, width, start_idx, goal_idx,
allow_diagonal, heuristic_override, tiebreaker_coefficient)` whose value is
returned unchanged. -/
def astar_path {α : Type} (core : CoreFn α) (weights : NDArray)
    (start goal : Int × Int) (allow_diagonal : Bool)
    (heuristic_override : Int) (tiebreaker_coefficient : ℚ) :
    Except AstarError α :=
  if weights.dtype ≠ "float32" then
    .error (.assertDtype weights.dtype)
  else
    match weights.min with
    | none => .error .emptyReduction
    | some m =>
      if m < 1 then
        .error (.minCost m)
      else if start.1 < 0 ∨ start.1 ≥ (weights.H : Int) ∨
          start.2 < 0 ∨ start.2 ≥ (weights.W : Int) then
        .error (.startOutside start)
      else if goal.1 < 0 ∨ goal.1 ≥ (weights.H : Int) ∨
          goal.2 < 0 ∨ goal.2 ≥ (weights.W : Int) then
        .error (.goalOutside goal)
      else
        .ok (core weights.flatten weights.H weights.W
          (ravel start weights.W) (ravel goal weights.W)
          allow_diagonal heuristic_override tiebreaker_coefficient)

/-! Heap model, used for the frame property of the foreign call.  Numpy data
buffers live in a heap mapping addresses to raw float32 buffers; `next` is the
next fresh address.  Array metadata (dtype, shape) lives in the Python-side
descriptor `NDRef`, which the C core never sees: the ctypes binding only
passes it the data pointer of the flattened copy. -/

/-- Heap of numpy data buffers: raw float32 contents per address, plus the
next fresh address. -/
structure Heap where
  mem : Nat → List ℚ
  next : Nat

/-- Descriptor of the caller's 2-D weights array: dtype tag, shape, and the
address of its data buffer in the heap. -/
structure NDRef where
  dtype : String
  H : Nat
  W : Nat
  ptr : Nat

/-- Signature of the C core in the heap model: it receives the heap, the
address of the flattened weights buffer, height, width, flattened start and
goal indices, diagonal flag, heuristic selector and tiebreaker coefficient,
and may return an updated heap together with its result. -/
def CoreHFn (α : Type) : Type :=
  Heap → Nat → Nat → Nat → Nat → Nat → Bool → Int → ℚ → Heap × α

/-- Heap-model embedding of `astar_path`: the same checks as `astar_path`, in
source order, but `weights.flatten()` is modelled as allocating a fresh buffer
at address `h.next` holding a copy of the weights data, and only that fresh
address is handed to the core — mirroring how the ctypes binding passes the
flattened copy's data pointer, never the caller's buffer. -/
def astar_path_heap {α : Type} (core : CoreHFn α) (h : Heap) (weights : NDRef)
    (start goal : Int × Int) (allow_diagonal : Bool)
    (heuristic_override : Int) (tiebreaker_coefficient : ℚ) :
    Heap × Except AstarError α :=
  if weights.dtype ≠ "float32" then
    (h, .error (.assertDtype weights.dtype))
  else
    match npMin (h.mem weights.ptr) with
    | none => (h, .error .emptyReduction)
    | some m =>
      if m < 1 then
        (h, .error (.minCost m))
      else if start.1 < 0 ∨ start.1 ≥ (weights.H : Int) ∨
          start.2 < 0 ∨ start.2 ≥ (weights.W : Int) then
        (h, .error (.startOutside start))
      else if goal.1 < 0 ∨ goal.1 ≥ (weights.H : Int) ∨
          goal.2 < 0 ∨ goal.2 ≥ (weights.W : Int) then
        (h, .error (.goalOutside goal))
      else
        let r := core
          ⟨fun p => if p = h.next then h.mem weights.ptr else h.mem p,
            h.next + 1⟩
          h.next weights.H weights.W
          (ravel start weights.W) (ravel goal weights.W)
          allow_diagonal heuristic_override tiebreaker_coefficient
        (r.1, .ok r.2)

/-- A core respects the foreign-call frame when it only ever writes the buffer
whose address it receives and freshly allocated addresses: every other
already-allocated address keeps its contents. -/
def CoreFrame {α : Type} (core : CoreHFn α) : Prop :=
  ∀ (h : Heap) (p hgt wdt si gi : Nat) (ad : Bool) (ho : Int) (tc : ℚ)
    (q : Nat), q < h.next → q ≠ p →
    (core h p hgt wdt si gi ad ho tc).1.mem q = h.mem q

/-! Concrete values used by the witness theorems. -/

deriving instance DecidableEq for Except

/-- Stand-in core for concrete evaluations: always reports no path. -/
def demoCore : CoreFn (Option (List (Int × Int))) :=
  fun _ _ _ _ _ _ _ _ => none

/-- Second stand-in core, returning the empty path, used where a claim
quantifies over two cores. -/
def demoCore2 : CoreFn (Option (List (Int × Int))) :=
  fun _ _ _ _ _ _ _ _ => some []

/-- Concrete valid grid: 2 by 2, float32, every weight 2. -/
def demoGood : NDArray :=
  ⟨"float32", 2, 2, fun _ _ => 2⟩

/-- Variant of `demoGood` that differs only outside the index range: the same
observable contents as a numpy array, a different Lean function. -/
def demoGood2 : NDArray :=
  ⟨"float32", 2, 2, fun r c => if r < 2 ∧ c < 2 then 2 else 99⟩

/-- Concrete invalid grid: 2 by 2, float32, every weight 0 (below 1). -/
def demoBad : NDArray :=
  ⟨"float32", 2, 2, fun _ _ => 0⟩

/-- Concrete grid with the wrong dtype, weights below 1 and room for
out-of-bounds coordinates, to show the dtype assert fires first. -/
def demoWrongDtype : NDArray :=
  ⟨"float64", 2, 2, fun _ _ => 0⟩

/-- Stand-in heap-model core that touches nothing and reports no path. -/
def demoCoreH : CoreHFn (Option (List (Int × Int))) :=
  fun h _ _ _ _ _ _ _ _ => (h, none)

/-- Concrete heap with one allocated buffer, a 1 by 2 grid of weights 2. -/
def demoHeap : Heap :=
  ⟨fun _ => [2, 2], 1⟩

/-- Descriptor of the array at address 0 of `demoHeap`. -/
def demoRef : NDRef :=
  ⟨"float32", 1, 2, 0⟩

/-! NaN-aware float32 refinement.  The `ℚ`-valued model above cannot express
NaN, yet the wrapper's sub-1 weight check is defeated by NaN: numpy's `min`
propagates NaN and the IEEE comparison `nan < 1.0` is false, so an array
holding both a NaN and an entry below 1 sails through the validation.  The
definitions below repeat the wrapper over values that may be NaN, with the
comparison and the reduction following IEEE-754 / numpy semantics.  Signed
infinities are left out: each behaves like an ordinary ordered value in every
comparison the wrapper performs, so they cannot change any branch taken. -/

/-- Float32 value: NaN, or a finite value modelled as a rational. -/
inductive F32 where
  | nan
  | fin (val : ℚ)
  deriving DecidableEq

/-- IEEE-754 less-than on float32 values: every comparison against NaN is
false; finite values compare as rationals. -/
def F32.lt : F32 → F32 → Bool
  | F32.nan, _ => false
  | _, F32.nan => false
  | F32.fin a, F32.fin b => decide (a < b)

/-- Binary minimum used by numpy's `min` reduction on float32: NaN
propagates, finite values take the smaller. -/
def minF : F32 → F32 → F32
  | F32.nan, _ => F32.nan
  | _, F32.nan => F32.nan
  | F32.fin a, F32.fin b => F32.fin (min a b)

/-- Numpy `min` reduction over float32 values that may be NaN: `none` on a
zero-size reduction, otherwise the NaN-propagating fold. -/
def npMinF : List F32 → Option F32
  | [] => none
  | x :: xs => some (xs.foldl minF x)

/-- Model of a 2-D numpy float32 array with NaN representable. -/
structure NDArrayF where
  dtype : String
  H : Nat
  W : Nat
  entries : Nat → Nat → F32

/-- Row-major flattening of the NaN-aware array, as `weights.flatten()`. -/
def NDArrayF.flatten (b : NDArrayF) : List F32 :=
  (List.range b.H).flatMap fun r => (List.range b.W).map fun c => b.entries r c

/-- Embedding of `weights.min(axis=None)` for the NaN-aware array. -/
def NDArrayF.min (b : NDArrayF) : Option F32 :=
  npMinF b.flatten

/-- The wrapper's exceptions in the NaN-aware model; the minimum-cost
`ValueError` carries the float32 value interpolated into its message, which
can be NaN here. -/
inductive AstarErrorF where
  /-- Python `AssertionError` from the dtype assert. -/
  | assertDtype (actual : String)
  /-- Python `ValueError` from a zero-size `min` reduction. -/
  | emptyReduction
  /-- Python `ValueError` `Minimum cost to move must be 1, but got %f`. -/
  | minCost (got : F32)
  /-- Python `ValueError` `Start of {start} lies outside grid.` -/
  | startOutside (start : Int × Int)
  /-- Python `ValueError` `Goal of {goal} lies outside grid.` -/
  | goalOutside (goal : Int × Int)
  deriving DecidableEq

/-- In-bounds predicate for the NaN-aware array, as `inBounds`. -/
def inBoundsF (b : NDArrayF) (p : Int × Int) : Prop :=
  0 ≤ p.1 ∧ p.1 < (b.H : Int) ∧ 0 ≤ p.2 ∧ p.2 < (b.W : Int)

instance (b : NDArrayF) (p : Int × Int) : Decidable (inBoundsF b p) := by
  unfold inBoundsF; infer_instance

/-- Core signature over NaN-aware flattened weights. -/
def CoreFnF (α : Type) : Type :=
  List F32 → Nat → Nat → Nat → Nat → Bool → Int → ℚ → α

/-- The wrapper `astar_path` over NaN-aware float32 values: identical to
`astar_path` line for line, except that the check
`weights.min(axis=None) < 1.` is the IEEE comparison `F32.lt` of the
NaN-propagating minimum against 1, exactly as the Python expression
evaluates on float32 data. -/
def astar_pathF {α : Type} (core : CoreFnF α) (weights : NDArrayF)
    (start goal : Int × Int) (allow_diagonal : Bool)
    (heuristic_override : Int) (tiebreaker_coefficient : ℚ) :
    Except AstarErrorF α :=
  if weights.dtype ≠ "float32" then
    .error (.assertDtype weights.dtype)
  else
    match weights.min with
    | none => .error .emptyReduction
    | some m =>
      if F32.lt m (F32.fin 1) then
        .error (.minCost m)
      else if start.1 < 0 ∨ start.1 ≥ (weights.H : Int) ∨
          start.2 < 0 ∨ start.2 ≥ (weights.W : Int) then
        .error (.startOutside start)
      else if goal.1 < 0 ∨ goal.1 ≥ (weights.H : Int) ∨
          goal.2 < 0 ∨ goal.2 ≥ (weights.W : Int) then
        .error (.goalOutside goal)
      else
        .ok (core weights.flatten weights.H weights.W
          (ravel start weights.W) (ravel goal weights.W)
          allow_diagonal heuristic_override tiebreaker_coefficient)

/-- Finite part of a float32 value (0 on NaN; only consulted under a no-NaN
hypothesis). -/
def unfin : F32 → ℚ
  | F32.nan => 0
  | F32.fin q => q

/-- Rational projection of a NaN-aware array, exact on NaN-free arrays. -/
def toQ (b : NDArrayF) : NDArray :=
  ⟨b.dtype, b.H, b.W, fun r c => unfin (b.entries r c)⟩

/-- An array is NaN-free when no in-range entry is NaN. -/
def noNaN (b : NDArrayF) : Prop :=
  ∀ r, r < b.H → ∀ c, c < b.W → b.entries r c ≠ F32.nan

instance (b : NDArrayF) : Decidable (noNaN b) := by
  unfold noNaN; infer_instance

/-- Stand-in NaN-model core: always reports no path. -/
def demoCoreF : CoreFnF (Option (List (Int × Int))) :=
  fun _ _ _ _ _ _ _ _ => none

/-- The 1 by 2 float32 array `[[NaN, 0.0]]`: non-empty, and its second entry
is strictly below 1. -/
def nanGrid : NDArrayF :=
  ⟨"float32", 1, 2, fun _ c => if c = 0 then F32.nan else F32.fin 0⟩

/-- NaN-free invalid grid in the NaN-aware model: 2 by 2, every weight 0. -/
def demoBadF : NDArrayF :=
  ⟨"float32", 2, 2, fun _ _ => F32.fin 0⟩

/-! Helper lemmas about the flattening and the minimum. -/

theorem foldl_min_lt_iff (xs : List ℚ) (x y : ℚ) :
    xs.foldl min x < y ↔ x < y ∨ ∃ z ∈ xs, z < y := by
  induction xs generalizing x with
  | nil => simp
  | cons a as ih =>
    simp only [List.foldl_cons, ih, min_lt_iff, List.mem_cons]
    constructor
    · rintro (⟨h | h⟩ | ⟨z, hz, h⟩)
      · exact Or.inl h
      · exact Or.inr ⟨a, Or.inl rfl, h⟩
      · exact Or.inr ⟨z, Or.inr hz, h⟩
    · rintro (h | ⟨z, rfl | hz, h⟩)
      · exact Or.inl (Or.inl h)
      · exact Or.inl (Or.inr h)
      · exact Or.inr ⟨z, hz, h⟩

theorem foldl_min_mem (xs : List ℚ) (x : ℚ) : xs.foldl min x ∈ x :: xs := by
  induction xs generalizing x with
  | nil => simp
  | cons a as ih =>
    have h := ih (min x a)
    rw [List.mem_cons] at h
    rw [List.foldl_cons]
    rcases h with h | h
    · rw [h]
      rcases min_choice x a with h2 | h2 <;> rw [h2] <;> simp
    · exact List.mem_cons_of_mem _ (List.mem_cons_of_mem _ h)

theorem foldl_min_le (xs : List ℚ) (x : ℚ) :
    ∀ z ∈ x :: xs, xs.foldl min x ≤ z := by
  have h := (foldl_min_lt_iff xs x (xs.foldl min x)).not.mp (lt_irrefl _)
  push_neg at h
  intro z hz
  rw [List.mem_cons] at hz
  rcases hz with rfl | hz
  · exact h.1
  · exact h.2 z hz

theorem mem_flatten_iff (a : NDArray) (q : ℚ) :
    q ∈ a.flatten ↔ ∃ r, r < a.H ∧ ∃ c, c < a.W ∧ a.entries r c = q := by
  simp [NDArray.flatten, List.mem_flatMap, List.mem_map, List.mem_range]

theorem flatten_aux_length (e : Nat → Nat → ℚ) (W H : Nat) :
    ((List.range H).flatMap fun r => (List.range W).map fun c => e r c).length
      = H * W := by
  induction H with
  | zero => simp
  | succ n ih =>
    rw [List.range_succ, List.flatMap_append, List.length_append, ih]
    simp [Nat.succ_mul]

theorem flatten_length (a : NDArray) : a.flatten.length = a.H * a.W :=
  flatten_aux_length a.entries a.W a.H

theorem flatten_aux_getElem (e : Nat → Nat → ℚ) (W H r c : Nat)
    (hr : r < H) (hc : c < W) :
    ((List.range H).flatMap fun i => (List.range W).map fun j => e i j)[r * W + c]?
      = some (e r c) := by
  induction H with
  | zero => omega
  | succ n ih =>
    rw [List.range_succ, List.flatMap_append]
    by_cases h : r < n
    · rw [List.getElem?_append_left]
      · exact ih h
      · rw [flatten_aux_length]
        have h1 : r * W + c < (r + 1) * W := by rw [Nat.succ_mul]; omega
        have h2 : (r + 1) * W ≤ n * W := Nat.mul_le_mul_right W (by omega)
        exact lt_of_lt_of_le h1 h2
    · have hrn : r = n := by omega
      subst hrn
      rw [List.getElem?_append_right (by rw [flatten_aux_length]; omega)]
      rw [flatten_aux_length]
      have hidx : r * W + c - r * W = c := by omega
      rw [hidx]
      simp [List.getElem?_map, List.getElem?_range hc]

theorem flatten_getElem (a : NDArray) (r c : Nat) (hr : r < a.H) (hc : c < a.W) :
    a.flatten[r * a.W + c]? = some (a.entries r c) :=
  flatten_aux_getElem a.entries a.W a.H r c hr hc

theorem flatten_ne_nil (a : NDArray) (hH : 0 < a.H) (hW : 0 < a.W) :
    a.flatten ≠ [] := by
  intro h
  have hlen := flatten_length a
  rw [h] at hlen
  have : a.H * a.W ≠ 0 := Nat.mul_ne_zero (by omega) (by omega)
  simp at hlen
  omega

theorem min_spec (a : NDArray) (hH : 0 < a.H) (hW : 0 < a.W) :
    ∃ m, a.min = some m ∧ m ∈ a.flatten ∧ ∀ q ∈ a.flatten, m ≤ q := by
  obtain ⟨x, xs, hx⟩ : ∃ x xs, a.flatten = x :: xs := by
    cases h : a.flatten with
    | nil => exact absurd h (flatten_ne_nil a hH hW)
    | cons x xs => exact ⟨x, xs, rfl⟩
  refine ⟨xs.foldl min x, ?_, ?_, ?_⟩
  · show npMin a.flatten = _
    rw [hx]
    rfl
  · rw [hx]
    exact foldl_min_mem xs x
  · rw [hx]
    exact foldl_min_le xs x

theorem flatten_congr (a b : NDArray) (hH : a.H = b.H) (hW : a.W = b.W)
    (he : ∀ r, r < a.H → ∀ c, c < a.W → a.entries r c = b.entries r c) :
    a.flatten = b.flatten := by
  unfold NDArray.flatten
  rw [← hH, ← hW]
  rw [List.flatMap_def, List.flatMap_def]
  congr 1
  apply List.map_congr_left
  intro r hr
  apply List.map_congr_left
  intro c hc
  exact he r (List.mem_range.mp hr) c (List.mem_range.mp hc)

theorem not_inBounds_iff (a : NDArray) (p : Int × Int) :
    (p.1 < 0 ∨ p.1 ≥ (a.H : Int) ∨ p.2 < 0 ∨ p.2 ≥ (a.W : Int)) ↔
      ¬ inBounds a p := by
  unfold inBounds
  omega

/-! Branch characterizations of `astar_path`. -/

theorem astar_path_eq_baddtype {α : Type} (core : CoreFn α) (a : NDArray)
    (s g : Int × Int) (ad : Bool) (ho : Int) (tc : ℚ)
    (hdt : a.dtype ≠ "float32") :
    astar_path core a s g ad ho tc = .error (.assertDtype a.dtype) := by
  unfold astar_path
  rw [if_pos hdt]

theorem astar_path_eq_none {α : Type} (core : CoreFn α) (a : NDArray)
    (s g : Int × Int) (ad : Bool) (ho : Int) (tc : ℚ)
    (hdt : a.dtype = "float32") (hmc : a.min = none) :
    astar_path core a s g ad ho tc = .error .emptyReduction := by
  unfold astar_path
  rw [if_neg (by simp [hdt])]
  simp only [hmc]

theorem astar_path_eq_some {α : Type} (core : CoreFn α) (a : NDArray)
    (s g : Int × Int) (ad : Bool) (ho : Int) (tc : ℚ) (m : ℚ)
    (hdt : a.dtype = "float32") (hmc : a.min = some m) :
    astar_path core a s g ad ho tc =
      if m < 1 then .error (.minCost m)
      else if ¬ inBounds a s then .error (.startOutside s)
      else if ¬ inBounds a g then .error (.goalOutside g)
      else .ok (core a.flatten a.H a.W (ravel s a.W) (ravel g a.W)
        ad ho tc) := by
  unfold astar_path
  rw [if_neg (by simp [hdt])]
  simp only [hmc]
  by_cases hm : m < 1
  · rw [if_pos hm, if_pos hm]
  · rw [if_neg hm, if_neg hm]
    by_cases hs : inBounds a s
    · rw [if_neg (by rw [not_inBounds_iff]; exact not_not_intro hs),
        if_neg (not_not_intro hs)]
      by_cases hg : inBounds a g
      · rw [if_neg (by rw [not_inBounds_iff]; exact not_not_intro hg),
          if_neg (not_not_intro hg)]
      · rw [if_pos ((not_inBounds_iff a g).mpr hg), if_pos hg]
    · rw [if_pos ((not_inBounds_iff a s).mpr hs), if_pos hs]

theorem min_ge_one (a : NDArray) (hH : 0 < a.H) (hW : 0 < a.W)
    (hw1 : ∀ r, r < a.H → ∀ c, c < a.W → 1 ≤ a.entries r c) :
    ∃ m, a.min = some m ∧ ¬ m < 1 := by
  obtain ⟨m, hmc, hmem, hlb⟩ := min_spec a hH hW
  refine ⟨m, hmc, ?_⟩
  obtain ⟨r, hr, c, hc, hrc⟩ := (mem_flatten_iff a m).mp hmem
  rw [not_lt, ← hrc]
  exact hw1 r hr c hc

theorem astar_path_ok {α : Type} (core : CoreFn α) (a : NDArray)
    (s g : Int × Int) (ad : Bool) (ho : Int) (tc : ℚ)
    (hdt : a.dtype = "float32") (hH : 0 < a.H) (hW : 0 < a.W)
    (hw1 : ∀ r, r < a.H → ∀ c, c < a.W → 1 ≤ a.entries r c)
    (hs : inBounds a s) (hg : inBounds a g) :
    astar_path core a s g ad ho tc =
      .ok (core a.flatten a.H a.W (ravel s a.W) (ravel g a.W) ad ho tc) := by
  obtain ⟨m, hmc, hm⟩ := min_ge_one a hH hW hw1
  rw [astar_path_eq_some core a s g ad ho tc m hdt hmc, if_neg hm,
    if_neg (not_not_intro hs), if_neg (not_not_intro hg)]

theorem idx_lt (r c H W : Nat) (hr : r < H) (hc : c < W) :
    r * W + c < H * W := by
  have h1 : r * W + c < (r + 1) * W := by rw [Nat.succ_mul]; omega
  exact lt_of_lt_of_le h1 (Nat.mul_le_mul_right W hr)

theorem idx_div (r c W : Nat) (hc : c < W) : (r * W + c) / W = r := by
  rw [Nat.mul_comm, Nat.mul_add_div (by omega), Nat.div_eq_of_lt hc]
  omega

theorem idx_mod (r c W : Nat) (hc : c < W) : (r * W + c) % W = c := by
  rw [Nat.mul_comm, Nat.mul_add_mod]
  exact Nat.mod_eq_of_lt hc

/-! Helper lemmas relating the NaN-aware model to the rational model on
NaN-free data. -/

theorem foldl_minF_map (xs : List ℚ) (x : ℚ) :
    (xs.map F32.fin).foldl minF (F32.fin x) = F32.fin (xs.foldl min x) := by
  induction xs generalizing x with
  | nil => rfl
  | cons a as ih => exact ih (min x a)

theorem npMinF_map (l : List ℚ) :
    npMinF (l.map F32.fin) = (npMin l).map F32.fin := by
  cases l with
  | nil => rfl
  | cons x xs =>
    show some ((xs.map F32.fin).foldl minF (F32.fin x)) = _
    rw [foldl_minF_map]
    rfl

theorem flattenF_eq_map (b : NDArrayF) (hn : noNaN b) :
    b.flatten = ((toQ b).flatten).map F32.fin := by
  unfold NDArrayF.flatten NDArray.flatten toQ
  dsimp only
  rw [List.map_flatMap, List.flatMap_def, List.flatMap_def]
  congr 1
  apply List.map_congr_left
  intro r hr
  rw [List.map_map]
  apply List.map_congr_left
  intro c hc
  show b.entries r c = F32.fin (unfin (b.entries r c))
  cases h : b.entries r c with
  | nan =>
    exact absurd h (hn r (List.mem_range.mp hr) c (List.mem_range.mp hc))
  | fin q => rfl

theorem minF_arr_eq (b : NDArrayF) (hn : noNaN b) :
    b.min = ((toQ b).min).map F32.fin := by
  unfold NDArrayF.min NDArray.min
  rw [flattenF_eq_map b hn, npMinF_map]

theorem not_inBoundsF_iff (b : NDArrayF) (p : Int × Int) :
    (p.1 < 0 ∨ p.1 ≥ (b.H : Int) ∨ p.2 < 0 ∨ p.2 ≥ (b.W : Int)) ↔
      ¬ inBoundsF b p := by
  unfold inBoundsF
  omega

theorem astar_pathF_eq_some {α : Type} (core : CoreFnF α) (b : NDArrayF)
    (s g : Int × Int) (ad : Bool) (ho : Int) (tc : ℚ) (m : F32)
    (hdt : b.dtype = "float32") (hmc : b.min = some m) :
    astar_pathF core b s g ad ho tc =
      if F32.lt m (F32.fin 1) then .error (.minCost m)
      else if ¬ inBoundsF b s then .error (.startOutside s)
      else if ¬ inBoundsF b g then .error (.goalOutside g)
      else .ok (core b.flatten b.H b.W (ravel s b.W) (ravel g b.W)
        ad ho tc) := by
  unfold astar_pathF
  rw [if_neg (by simp [hdt])]
  simp only [hmc]
  by_cases hm : F32.lt m (F32.fin 1) = true
  · rw [if_pos hm, if_pos hm]
  · rw [if_neg hm, if_neg hm]
    by_cases hs : inBoundsF b s
    · rw [if_neg (by rw [not_inBoundsF_iff]; exact not_not_intro hs),
        if_neg (not_not_intro hs)]
      by_cases hg : inBoundsF b g
      · rw [if_neg (by rw [not_inBoundsF_iff]; exact not_not_intro hg),
          if_neg (not_not_intro hg)]
      · rw [if_pos ((not_inBoundsF_iff b g).mpr hg), if_pos hg]
    · rw [if_pos ((not_inBoundsF_iff b s).mpr hs), if_pos hs]

theorem no_min_costF_of_nlt {α : Type} (core : CoreFnF α) (b : NDArrayF)
    (s g : Int × Int) (ad : Bool) (ho : Int) (tc : ℚ) (m : F32)
    (hdt : b.dtype = "float32") (hmc : b.min = some m)
    (hm : ¬ F32.lt m (F32.fin 1) = true) (v : F32) :
    astar_pathF core b s g ad ho tc ≠ .error (.minCost v) := by
  rw [astar_pathF_eq_some core b s g ad ho tc m hdt hmc, if_neg hm]
  by_cases hs : ¬ inBoundsF b s
  · rw [if_pos hs]; simp
  · rw [if_neg hs]
    by_cases hg : ¬ inBoundsF b g
    · rw [if_pos hg]; simp
    · rw [if_neg hg]; simp

/-! Claim theorems. -/

/-- C1 counterexample: on the non-empty float32 array `[[NaN, 0.0]]` the
entry at `(0, 1)` compares strictly below 1, yet the call returns success —
no `ValueError` at all is raised — because the NaN-propagating minimum does
not compare below 1.  This refutes the unrestricted "error iff some entry
below 1" reading. -/
theorem c1_counterexample :
    nanGrid.dtype = "float32" ∧ 0 < nanGrid.H ∧ 0 < nanGrid.W ∧
    F32.lt (nanGrid.entries 0 1) (F32.fin 1) = true ∧
    astar_pathF demoCoreF nanGrid (0, 0) (0, 1) false 0 0 = .ok none := by
  decide

/-- C1 (amended): for every non-empty float32 weights array containing no
NaN entry, `astar_pathF` raises the minimum-cost `ValueError` iff some entry
compares strictly below 1, and any such error reports the minimum of the
array (an entry below no other entry); in particular when every entry is at
least 1 no minimum-cost error is raised.  The NaN-free restriction is forced
by `c1_counterexample`. -/
theorem c1_amended_min_cost_error_iff {α : Type} (core : CoreFnF α)
    (b : NDArrayF) (s g : Int × Int) (ad : Bool) (ho : Int) (tc : ℚ)
    (hdt : b.dtype = "float32") (hH : 0 < b.H) (hW : 0 < b.W)
    (hn : noNaN b) :
    ((∃ v, astar_pathF core b s g ad ho tc = .error (.minCost v)) ↔
      ∃ r, r < b.H ∧ ∃ c, c < b.W ∧
        F32.lt (b.entries r c) (F32.fin 1) = true) ∧
    ∀ v, astar_pathF core b s g ad ho tc = .error (.minCost v) →
      (∃ r, r < b.H ∧ ∃ c, c < b.W ∧ b.entries r c = v) ∧
      ∀ r, r < b.H → ∀ c, c < b.W → F32.lt (b.entries r c) v = false := by
  obtain ⟨m, hmc, hmem, hlb⟩ := min_spec (toQ b) hH hW
  have hmcF : b.min = some (F32.fin m) := by
    rw [minF_arr_eq b hn, hmc]
    rfl
  have heq := astar_pathF_eq_some core b s g ad ho tc (F32.fin m) hdt hmcF
  have hent : ∀ r, r < b.H → ∀ c, c < b.W →
      b.entries r c = F32.fin (unfin (b.entries r c)) := by
    intro r hr c hc
    cases h : b.entries r c with
    | nan => exact absurd h (hn r hr c hc)
    | fin q => rfl
  constructor
  · constructor
    · rintro ⟨v, hv⟩
      by_cases hm : m < 1
      · obtain ⟨r, hr, c, hc, hrc⟩ := (mem_flatten_iff (toQ b) m).mp hmem
        refine ⟨r, hr, c, hc, ?_⟩
        rw [hent r hr c hc]
        have hu : unfin (b.entries r c) = m := hrc
        rw [hu]
        exact decide_eq_true hm
      · exact absurd hv (no_min_costF_of_nlt core b s g ad ho tc (F32.fin m)
          hdt hmcF (fun hcon => hm (of_decide_eq_true hcon)) v)
    · rintro ⟨r, hr, c, hc, hlt⟩
      rw [hent r hr c hc] at hlt
      have hu : unfin (b.entries r c) < 1 := of_decide_eq_true hlt
      have hm : m < 1 :=
        lt_of_le_of_lt
          (hlb _ ((mem_flatten_iff (toQ b) _).mpr ⟨r, hr, c, hc, rfl⟩)) hu
      exact ⟨F32.fin m, by
        rw [heq, if_pos (show F32.lt (F32.fin m) (F32.fin 1) = true from
          decide_eq_true hm)]⟩
  · intro v hv
    by_cases hm : m < 1
    · rw [heq, if_pos (show F32.lt (F32.fin m) (F32.fin 1) = true from
        decide_eq_true hm)] at hv
      injection hv with h2
      injection h2 with h3
      subst h3
      constructor
      · obtain ⟨r, hr, c, hc, hrc⟩ := (mem_flatten_iff (toQ b) m).mp hmem
        refine ⟨r, hr, c, hc, ?_⟩
        rw [hent r hr c hc]
        exact congrArg F32.fin hrc
      · intro r hr c hc
        rw [hent r hr c hc]
        exact decide_eq_false (not_lt.mpr
          (hlb _ ((mem_flatten_iff (toQ b) _).mpr ⟨r, hr, c, hc, rfl⟩)))
    · exact absurd hv (no_min_costF_of_nlt core b s g ad ho tc (F32.fin m)
        hdt hmcF (fun hcon => hm (of_decide_eq_true hcon)) v)

/-- C1 (amended) witness: the NaN-free all-zero 2 by 2 grid instantiates the
hypotheses of `c1_amended_min_cost_error_iff`. -/
theorem c1_amended_witness :
    ((∃ v, astar_pathF demoCoreF demoBadF (0, 0) (1, 1) false 0 0 =
        .error (.minCost v)) ↔
      ∃ r, r < demoBadF.H ∧ ∃ c, c < demoBadF.W ∧
        F32.lt (demoBadF.entries r c) (F32.fin 1) = true) ∧
    ∀ v, astar_pathF demoCoreF demoBadF (0, 0) (1, 1) false 0 0 =
        .error (.minCost v) →
      (∃ r, r < demoBadF.H ∧ ∃ c, c < demoBadF.W ∧
        demoBadF.entries r c = v) ∧
      ∀ r, r < demoBadF.H → ∀ c, c < demoBadF.W →
        F32.lt (demoBadF.entries r c) v = false :=
  c1_amended_min_cost_error_iff demoCoreF demoBadF (0, 0) (1, 1) false 0 0
    rfl (by decide) (by decide) (by decide)

/-- C2: for a float32 grid with positive shape whose entries are all at least
1, `astar_path` raises iff start or goal is out of bounds; an out-of-bounds
start always produces the start `ValueError` carrying the start pair (the
start check comes first), and with an in-bounds start an out-of-bounds goal
produces the goal `ValueError` carrying the goal pair. -/
theorem c2_bounds_error_iff {α : Type} (core : CoreFn α) (a : NDArray)
    (s g : Int × Int) (ad : Bool) (ho : Int) (tc : ℚ)
    (hdt : a.dtype = "float32") (hH : 0 < a.H) (hW : 0 < a.W)
    (hw1 : ∀ r, r < a.H → ∀ c, c < a.W → 1 ≤ a.entries r c) :
    ((∃ e, astar_path core a s g ad ho tc = .error e) ↔
      ¬ inBounds a s ∨ ¬ inBounds a g) ∧
    (¬ inBounds a s →
      astar_path core a s g ad ho tc = .error (.startOutside s)) ∧
    (inBounds a s → ¬ inBounds a g →
      astar_path core a s g ad ho tc = .error (.goalOutside g)) := by
  obtain ⟨m, hmc, hm⟩ := min_ge_one a hH hW hw1
  have heq := astar_path_eq_some core a s g ad ho tc m hdt hmc
  rw [if_neg hm] at heq
  refine ⟨⟨?_, ?_⟩, ?_, ?_⟩
  · rintro ⟨e, he⟩
    rw [heq] at he
    by_cases hs : ¬ inBounds a s
    · exact Or.inl hs
    · rw [if_neg hs] at he
      by_cases hg : ¬ inBounds a g
      · exact Or.inr hg
      · rw [if_neg hg] at he
        exact Except.noConfusion he
  · rintro (hs | hg)
    · exact ⟨.startOutside s, by rw [heq, if_pos hs]⟩
    · by_cases hs : ¬ inBounds a s
      · exact ⟨.startOutside s, by rw [heq, if_pos hs]⟩
      · exact ⟨.goalOutside g, by rw [heq, if_neg hs, if_pos hg]⟩
  · intro hs
    rw [heq, if_pos hs]
  · intro hs hg
    rw [heq, if_neg (not_not_intro hs), if_pos hg]

/-- C2 witness: the all-2 grid with in-bounds start `(0, 0)` and out-of-bounds
goal `(2, 0)` instantiates the hypotheses of `c2_bounds_error_iff`. -/
theorem c2_witness :
    ((∃ e, astar_path demoCore demoGood (0, 0) (2, 0) false 0 0 = .error e) ↔
      ¬ inBounds demoGood (0, 0) ∨ ¬ inBounds demoGood (2, 0)) ∧
    (¬ inBounds demoGood (0, 0) →
      astar_path demoCore demoGood (0, 0) (2, 0) false 0 0 =
        .error (.startOutside (0, 0))) ∧
    (inBounds demoGood (0, 0) → ¬ inBounds demoGood (2, 0) →
      astar_path demoCore demoGood (0, 0) (2, 0) false 0 0 =
        .error (.goalOutside (2, 0))) :=
  c2_bounds_error_iff demoCore demoGood (0, 0) (2, 0) false 0 0 rfl
    (by decide) (by decide) (by decide)

/-- C3: whenever `astar_path` raises, the raised error is exactly reproduced
with any other core of any result type substituted, so the result of an error
path never depends on the core: no call crosses the foreign boundary there. -/
theorem c3_error_independent_of_core {α β : Type} (core : CoreFn α)
    (core2 : CoreFn β) (a : NDArray) (s g : Int × Int) (ad : Bool)
    (ho : Int) (tc : ℚ) (e : AstarError)
    (h : astar_path core a s g ad ho tc = .error e) :
    astar_path core2 a s g ad ho tc = .error e := by
  by_cases hdt : a.dtype = "float32"
  · cases hmc : a.min with
    | none =>
      rw [astar_path_eq_none core a s g ad ho tc hdt hmc] at h
      rw [astar_path_eq_none core2 a s g ad ho tc hdt hmc]
      injection h with h2
      rw [← h2]
    | some m =>
      rw [astar_path_eq_some core a s g ad ho tc m hdt hmc] at h
      rw [astar_path_eq_some core2 a s g ad ho tc m hdt hmc]
      by_cases hm : m < 1
      · rw [if_pos hm] at h ⊢
        injection h with h2
        rw [← h2]
      · rw [if_neg hm] at h ⊢
        by_cases hs : ¬ inBounds a s
        · rw [if_pos hs] at h ⊢
          injection h with h2
          rw [← h2]
        · rw [if_neg hs] at h ⊢
          by_cases hg : ¬ inBounds a g
          · rw [if_pos hg] at h ⊢
            injection h with h2
            rw [← h2]
          · rw [if_neg hg] at h
            exact Except.noConfusion h
  · rw [astar_path_eq_baddtype core a s g ad ho tc (by simp [hdt])] at h
    rw [astar_path_eq_baddtype core2 a s g ad ho tc (by simp [hdt])]
    injection h with h2
    rw [← h2]

/-- C3 witness: the all-zero grid errors identically under `demoCore` and
`demoCore2`, via `c3_error_independent_of_core` with the error evaluated
concretely. -/
theorem c3_witness :
    astar_path demoCore2 demoBad (0, 0) (1, 1) false 0 0 =
      .error (.minCost 0) :=
  c3_error_independent_of_core demoCore demoCore2 demoBad (0, 0) (1, 1)
    false 0 0 (.minCost 0) (by decide)

/-- C8: if the weights dtype is not `np.float32`, `astar_path` fails with the
dtype `AssertionError` naming the actual dtype, for every choice of entries,
coordinates, parameters and core — so no weight-value check, bounds check or
core invocation happens before the assert. -/
theorem c8_dtype_assertion {α : Type} (core : CoreFn α) (a : NDArray)
    (s g : Int × Int) (ad : Bool) (ho : Int) (tc : ℚ)
    (hdt : a.dtype ≠ "float32") :
    astar_path core a s g ad ho tc = .error (.assertDtype a.dtype) :=
  astar_path_eq_baddtype core a s g ad ho tc hdt

/-- C8 witness: a float64 grid with weights below 1 and an out-of-bounds start
still fails with the dtype assert, via `c8_dtype_assertion`. -/
theorem c8_witness :
    astar_path demoCore demoWrongDtype (5, 5) (1, 1) false 0 0 =
      .error (.assertDtype "float64") :=
  c8_dtype_assertion demoCore demoWrongDtype (5, 5) (1, 1) false 0 0
    (by decide)

/-- C4: for every input passing validation, the flattened indices passed to
the core are `start.1 * W + start.2` and `goal.1 * W + goal.2`; each lies in
`[0, H * W)`, dividing by `W` recovers the row and the remainder modulo `W`
recovers the column. -/
theorem c4_ravel_indices (a : NDArray) (s g : Int × Int) (ad : Bool)
    (ho : Int) (tc : ℚ)
    (hdt : a.dtype = "float32") (hH : 0 < a.H) (hW : 0 < a.W)
    (hw1 : ∀ r, r < a.H → ∀ c, c < a.W → 1 ≤ a.entries r c)
    (hs : inBounds a s) (hg : inBounds a g) :
    astar_path (fun _ _ _ si gi _ _ _ => (si, gi)) a s g ad ho tc =
      .ok (ravel s a.W, ravel g a.W) ∧
    ravel s a.W = s.1.toNat * a.W + s.2.toNat ∧
    ravel g a.W = g.1.toNat * a.W + g.2.toNat ∧
    ravel s a.W < a.H * a.W ∧ ravel g a.W < a.H * a.W ∧
    ravel s a.W / a.W = s.1.toNat ∧ ravel s a.W % a.W = s.2.toNat ∧
    ravel g a.W / a.W = g.1.toNat ∧ ravel g a.W % a.W = g.2.toNat := by
  have hok := astar_path_ok (fun _ _ _ si gi _ _ _ => (si, gi)) a s g ad ho tc
    hdt hH hW hw1 hs hg
  unfold inBounds at hs hg
  obtain ⟨hs1, hs2, hs3, hs4⟩ := hs
  obtain ⟨hg1, hg2, hg3, hg4⟩ := hg
  have hsr : s.1.toNat < a.H := by omega
  have hsc : s.2.toNat < a.W := by omega
  have hgr : g.1.toNat < a.H := by omega
  have hgc : g.2.toNat < a.W := by omega
  exact ⟨hok, rfl, rfl,
    idx_lt _ _ _ _ hsr hsc, idx_lt _ _ _ _ hgr hgc,
    idx_div _ _ _ hsc, idx_mod _ _ _ hsc,
    idx_div _ _ _ hgc, idx_mod _ _ _ hgc⟩

/-- C4 witness: on the all-2 grid with start `(1, 0)` and goal `(1, 1)` the
indices are 2 and 3, below `H * W = 4`, and division and remainder recover
the coordinates. -/
theorem c4_witness :
    astar_path (fun _ _ _ si gi _ _ _ => (si, gi)) demoGood (1, 0) (1, 1)
        false 0 0 = .ok (2, 3) ∧
    ravel (1, 0) demoGood.W = 2 ∧ ravel (1, 1) demoGood.W = 3 ∧
    ravel (1, 0) demoGood.W < 4 ∧ ravel (1, 1) demoGood.W < 4 ∧
    ravel (1, 0) demoGood.W / demoGood.W = 1 ∧
    ravel (1, 0) demoGood.W % demoGood.W = 0 ∧
    ravel (1, 1) demoGood.W / demoGood.W = 1 ∧
    ravel (1, 1) demoGood.W % demoGood.W = 1 :=
  c4_ravel_indices demoGood (1, 0) (1, 1) false 0 0 rfl (by decide)
    (by decide) (by decide) (by decide) (by decide)

/-- C5: for every input passing validation, the array handed to the core is
the row-major flattening of the 2-D weights: the wrapper passes
`weights.flatten()`, whose length is `H * W` and whose element at position
`r * W + c` is the entry at row `r`, column `c`, for all in-range `r`, `c`. -/
theorem c5_flatten_row_major (a : NDArray) (s g : Int × Int) (ad : Bool)
    (ho : Int) (tc : ℚ)
    (hdt : a.dtype = "float32") (hH : 0 < a.H) (hW : 0 < a.W)
    (hw1 : ∀ r, r < a.H → ∀ c, c < a.W → 1 ≤ a.entries r c)
    (hs : inBounds a s) (hg : inBounds a g) :
    astar_path (fun w _ _ _ _ _ _ _ => w) a s g ad ho tc = .ok a.flatten ∧
    a.flatten.length = a.H * a.W ∧
    ∀ r, r < a.H → ∀ c, c < a.W →
      a.flatten[r * a.W + c]? = some (a.entries r c) :=
  ⟨astar_path_ok (fun w _ _ _ _ _ _ _ => w) a s g ad ho tc hdt hH hW hw1 hs hg,
    flatten_length a, fun r hr c hc => flatten_getElem a r c hr hc⟩

/-- C5 witness: the hypotheses of `c5_flatten_row_major` hold on the all-2
grid with start `(0, 0)` and goal `(1, 1)`. -/
theorem c5_witness :
    astar_path (fun w _ _ _ _ _ _ _ => w) demoGood (0, 0) (1, 1) false 0 0 =
      .ok demoGood.flatten ∧
    demoGood.flatten.length = demoGood.H * demoGood.W ∧
    ∀ r, r < demoGood.H → ∀ c, c < demoGood.W →
      demoGood.flatten[r * demoGood.W + c]? = some (demoGood.entries r c) :=
  c5_flatten_row_major demoGood (0, 0) (1, 1) false 0 0 rfl (by decide)
    (by decide) (by decide) (by decide) (by decide)

/-- C6: for every input passing validation, `astar_path` returns success
carrying exactly the core's value on the flattened weights and converted
indices; in particular the real core's absent-path `None` comes back as an
ordinary value, never as an exception. -/
theorem c6_returns_core_result {α : Type} (core : CoreFn α) (a : NDArray)
    (s g : Int × Int) (ad : Bool) (ho : Int) (tc : ℚ)
    (hdt : a.dtype = "float32") (hH : 0 < a.H) (hW : 0 < a.W)
    (hw1 : ∀ r, r < a.H → ∀ c, c < a.W → 1 ≤ a.entries r c)
    (hs : inBounds a s) (hg : inBounds a g) :
    astar_path core a s g ad ho tc =
      .ok (core a.flatten a.H a.W (ravel s a.W) (ravel g a.W) ad ho tc) :=
  astar_path_ok core a s g ad ho tc hdt hH hW hw1 hs hg

/-- C6 witness: with a core reporting no path, the wrapper returns the
absent-path sentinel as a success value on the all-2 grid. -/
theorem c6_witness :
    astar_path demoCore demoGood (0, 0) (1, 1) false 0 0 = .ok none :=
  c6_returns_core_result demoCore demoGood (0, 0) (1, 1) false 0 0 rfl
    (by decide) (by decide) (by decide) (by decide) (by decide)

/-- C7: `astar_path` is deterministic: with tiebreaker coefficient 0, two
weights arrays with the same dtype, shape and entrywise-equal contents yield
identical results — the same error or the same returned value — for every
core, start, goal, diagonal flag and heuristic selector. -/
theorem c7_deterministic {α : Type} (core : CoreFn α) (a b : NDArray)
    (s g : Int × Int) (ad : Bool) (ho : Int)
    (hd : a.dtype = b.dtype) (hH : a.H = b.H) (hW : a.W = b.W)
    (he : ∀ r, r < a.H → ∀ c, c < a.W → a.entries r c = b.entries r c) :
    astar_path core a s g ad ho 0 = astar_path core b s g ad ho 0 := by
  have hfl : a.flatten = b.flatten := flatten_congr a b hH hW he
  have hmin : a.min = b.min := by
    unfold NDArray.min
    rw [hfl]
  unfold astar_path
  rw [hd, hH, hW, hmin, hfl]

/-- C7 witness: `demoGood` and `demoGood2` are distinct Lean functions with
the same observable contents, and the two calls agree. -/
theorem c7_witness :
    astar_path demoCore demoGood (0, 0) (1, 1) false 0 0 =
      astar_path demoCore demoGood2 (0, 0) (1, 1) false 0 0 :=
  c7_deterministic demoCore demoGood demoGood2 (0, 0) (1, 1) false 0 rfl rfl
    rfl (by decide)

/-- C9: `astar_path` never mutates the caller's weights array: in the heap
model, for every frame-respecting core and every outcome (error or success),
the buffer at the weights address is unchanged by the call — on success the
core only receives the address of a freshly allocated flattened copy, which
is distinct from every already-allocated address.  The shape and dtype live
in the Python-side descriptor the core never sees, so they are unchanged by
construction. -/
theorem c9_weights_not_mutated {α : Type} (core : CoreHFn α)
    (hframe : CoreFrame core) (h : Heap) (w : NDRef) (s g : Int × Int)
    (ad : Bool) (ho : Int) (tc : ℚ) (hptr : w.ptr < h.next) :
    (astar_path_heap core h w s g ad ho tc).1.mem w.ptr = h.mem w.ptr := by
  unfold astar_path_heap
  by_cases hdt : w.dtype ≠ "float32"
  · rw [if_pos hdt]
  · rw [if_neg hdt]
    cases hmc : npMin (h.mem w.ptr) with
    | none => rfl
    | some m =>
      dsimp only
      by_cases hm : m < 1
      · rw [if_pos hm]
      · rw [if_neg hm]
        by_cases hs : s.1 < 0 ∨ s.1 ≥ (w.H : Int) ∨
            s.2 < 0 ∨ s.2 ≥ (w.W : Int)
        · rw [if_pos hs]
        · rw [if_neg hs]
          by_cases hg : g.1 < 0 ∨ g.1 ≥ (w.H : Int) ∨
              g.2 < 0 ∨ g.2 ≥ (w.W : Int)
          · rw [if_pos hg]
          · rw [if_neg hg]
            have hfr := hframe
              ⟨fun p => if p = h.next then h.mem w.ptr else h.mem p,
                h.next + 1⟩
              h.next w.H w.W (ravel s w.W) (ravel g w.W) ad ho tc w.ptr
              (by show w.ptr < h.next + 1; omega) (by omega)
            dsimp only at hfr ⊢
            rw [hfr, if_neg (by omega)]

/-- C9 witness: a concrete frame-respecting core leaves the weights buffer of
a one-row grid untouched. -/
theorem c9_witness :
    (astar_path_heap demoCoreH demoHeap demoRef (0, 0) (0, 1)
        false 0 0).1.mem demoRef.ptr =
      demoHeap.mem demoRef.ptr :=
  c9_weights_not_mutated demoCoreH
    (fun _ _ _ _ _ _ _ _ _ _ _ _ => rfl)
    demoHeap demoRef (0, 0) (0, 1) false 0 0 (by decide)

/-- C10: the wrapper validates none of `allow_diagonal`,
`heuristic_override` and `tiebreaker_coefficient`: on otherwise valid input,
every value of these three parameters — heuristic selectors outside
`{0, 1, 2, 3, 4}` and negative coefficients included — produces no error,
and the values reach the core unchanged. -/
theorem c10_params_unvalidated (a : NDArray) (s g : Int × Int)
    (hdt : a.dtype = "float32") (hH : 0 < a.H) (hW : 0 < a.W)
    (hw1 : ∀ r, r < a.H → ∀ c, c < a.W → 1 ≤ a.entries r c)
    (hs : inBounds a s) (hg : inBounds a g) :
    ∀ (ad : Bool) (ho : Int) (tc : ℚ),
      astar_path (fun _ _ _ _ _ d o t => (d, o, t)) a s g ad ho tc =
        .ok (ad, ho, tc) :=
  fun ad ho tc =>
    astar_path_ok (fun _ _ _ _ _ d o t => (d, o, t)) a s g ad ho tc hdt hH hW
      hw1 hs hg

/-- C10 witness: the out-of-enum selector 99 and the negative coefficient -5
are accepted and passed through on the all-2 grid. -/
theorem c10_witness :
    astar_path (fun _ _ _ _ _ d o t => (d, o, t)) demoGood (0, 0) (1, 1)
        true 99 (-5) =
      .ok (true, 99, -5) :=
  c10_params_unvalidated demoGood (0, 0) (1, 1) rfl (by decide) (by decide)
    (by decide) (by decide) (by decide) true 99 (-5)

end PyAstar2D
